import Mathlib

/-!
Verified model of the geodude geohash library.

Shallow embedding of `src/geodude/cluster_functions.py`:

* `_calculate_single_geohash` — the body of the Python function of the same
  name: range validation of latitude, longitude and precision followed by a
  call to the external geohash encoder.
* the `lru_cache(maxsize=10000)` decorator — modelled as explicit state
  passing over an association list ordered by recency
  (`_calculate_single_geohash_cached`).
* `calculate_geohashes` — the public batch operation, with the cache state
  made explicit.

Latitudes and longitudes are modelled as exact rationals (Python floats are
a subset of ℚ), precision as an integer, and raised `ValueError`s as an
`Except` error of type `GeoError`, one constructor per message template.

The external `pygeodesy.geohash.encode` routine is not part of the
repository; it is modelled from the spec (see `geohash_encode`).
-/

deriving instance DecidableEq for Except

namespace Geodude

/-- The 32-character geohash alphabet: digits and lowercase letters
excluding the four ambiguous characters. -/
def BASE32 : List Char := "0123456789bcdefghjkmnpqrstuvwxyz".toList

/-- State of the interval-bisection encoder: the current longitude interval
is `[lonLo / 2 ^ lonExp, lonHi / 2 ^ lonExp]` and the current latitude
interval is `[latLo / 2 ^ latExp, latHi / 2 ^ latExp]` (interval endpoints
are always dyadic rationals, kept as integer numerators over a power of
two); `even` is `true` when the next bit bisects the longitude interval. -/
structure GHState where
  lonLo : ℤ
  lonHi : ℤ
  lonExp : ℕ
  latLo : ℤ
  latHi : ℤ
  latExp : ℕ
  even : Bool
  deriving DecidableEq

/-- Initial bisection state: longitude range `[-180, 180]`, latitude range
`[-90, 90]`, longitude bit first. -/
def GHState.init : GHState :=
  { lonLo := -180, lonHi := 180, lonExp := 0
    latLo := -90, latHi := 90, latExp := 0
    even := true }

/-- One bisection step: emit `1` and keep the upper half when the
coordinate is at or above the midpoint of the current interval, else emit
`0` and keep the lower half; alternate between longitude and latitude.
The comparison `mid ≤ x` with `mid = (lo + hi) / 2 ^ (e + 1)` is written
cross-multiplied, `(lo + hi) * x.den ≤ x.num * 2 ^ (e + 1)`, which is
equivalent because both denominators are positive. -/
def ghNextBit (lat lon : ℚ) (st : GHState) : ℕ × GHState :=
  if st.even then
    if (st.lonLo + st.lonHi) * (lon.den : ℤ) ≤ lon.num * 2 ^ (st.lonExp + 1) then
      (1, { st with
            lonLo := st.lonLo + st.lonHi
            lonHi := 2 * st.lonHi
            lonExp := st.lonExp + 1
            even := false })
    else
      (0, { st with
            lonLo := 2 * st.lonLo
            lonHi := st.lonLo + st.lonHi
            lonExp := st.lonExp + 1
            even := false })
  else
    if (st.latLo + st.latHi) * (lat.den : ℤ) ≤ lat.num * 2 ^ (st.latExp + 1) then
      (1, { st with
            latLo := st.latLo + st.latHi
            latHi := 2 * st.latHi
            latExp := st.latExp + 1
            even := true })
    else
      (0, { st with
            latLo := 2 * st.latLo
            latHi := st.latLo + st.latHi
            latExp := st.latExp + 1
            even := true })

/-- Accumulate `k` successive bits into one base-32 digit value
(most significant bit first). -/
def ghDigit (lat lon : ℚ) : ℕ → GHState → ℕ → ℕ × GHState
  | 0, st, acc => (acc, st)
  | k + 1, st, acc =>
    ghDigit lat lon k (ghNextBit lat lon st).2 (2 * acc + (ghNextBit lat lon st).1)

/-- Produce `n` geohash characters, five bits per character. -/
def ghChars (lat lon : ℚ) : ℕ → GHState → List Char
  | 0, _ => []
  | n + 1, st =>
    BASE32.getD (ghDigit lat lon 5 st 0).1 ' ' :: ghChars lat lon n (ghDigit lat lon 5 st 0).2

/-- Modelled from the spec: the external `pygeodesy.geohash.encode` routine,
which is not part of this repository. Per the spec it implements the
standard geohash algorithm: iteratively bisect the latitude and longitude
ranges, interleave the bits starting with longitude, and group every five
bits into one character of the 32-character alphabet `BASE32`. -/
def geohash_encode (lat lon : ℚ) (precision : ℕ) : String :=
  ⟨ghChars lat lon precision GHState.init⟩

/-- The `ValueError`s raised by `cluster_functions.py`, one constructor per
message template, carrying the interpolated values. -/
inductive GeoError where
  | latOutOfRange (value : ℚ)
  | lonOutOfRange (value : ℚ)
  | precisionOutOfRange (value : ℤ)
  | lengthMismatch (nlats nlons : ℕ)
  deriving DecidableEq

/-- The message of each error, with the offending value interpolated where
the Python f-string interpolates it. -/
def GeoError.message : GeoError → String
  | .latOutOfRange v => "Latitude must be between -90 and 90, got " ++ toString v
  | .lonOutOfRange v => "Longitude must be between -180 and 180, got " ++ toString v
  | .precisionOutOfRange v => "Precision must be between 1 and 12, got " ++ toString v
  | .lengthMismatch a b =>
      "Latitude and longitude lists must have same length, got " ++ toString a
        ++ " and " ++ toString b

/-- The three range checks at the top of `_calculate_single_geohash`, in
source order: latitude, then longitude, then precision. -/
def validate (lat lon : ℚ) (precision : ℤ) : Except GeoError Unit :=
  if ¬(-90 ≤ lat ∧ lat ≤ 90) then .error (.latOutOfRange lat)
  else if ¬(-180 ≤ lon ∧ lon ≤ 180) then .error (.lonOutOfRange lon)
  else if ¬(1 ≤ precision ∧ precision ≤ 12) then .error (.precisionOutOfRange precision)
  else .ok ()

/-- The body of `_calculate_single_geohash`, without the `lru_cache`
decorator: validate the triple, then call the external encoder. -/
def _calculate_single_geohash (lat lon : ℚ) (precision : ℤ) : Except GeoError String :=
  match validate lat lon precision with
  | .error e => .error e
  | .ok _ => .ok (geohash_encode lat lon precision.toNat)

/-- A cache key: the argument triple of `_calculate_single_geohash`. -/
abbrev Triple := ℚ × ℚ × ℤ

/-- The `lru_cache` state: an association list from argument triples to
cached results, ordered most-recently-used first. -/
abbrev Cache := List (Triple × String)

/-- The `maxsize=10000` bound of the `lru_cache` decorator. -/
def MAXSIZE : ℕ := 10000

/-- Cache lookup: the value stored for `k`, if any. -/
def lruLookup (c : Cache) (k : Triple) : Option String :=
  (c.find? fun e => decide (e.1 = k)).map Prod.snd

/-- Recency update on a cache hit: move the entry for `k` to the front. -/
def lruTouch (c : Cache) (k : Triple) (v : String) : Cache :=
  (k, v) :: c.filter fun e => !decide (e.1 = k)

/-- Insertion on a cache miss: put the new entry at the front and, when the
capacity bound is exceeded, evict the least-recently-used entry (the last
one). -/
def lruInsert (c : Cache) (k : Triple) (v : String) : Cache :=
  if MAXSIZE < ((k, v) :: c).length then ((k, v) :: c).dropLast else (k, v) :: c

/-- The `lru_cache(maxsize=10000)`-decorated `_calculate_single_geohash`,
with the cache made an explicit argument and result. The wrapper first
probes the cache with the argument triple; on a hit it returns the stored
string (updating recency) without running the function body; on a miss it
runs the body, and stores the result only when the body returns normally
(a raised `ValueError` is not cached and leaves the cache unchanged). -/
def _calculate_single_geohash_cached (c : Cache) (lat lon : ℚ) (precision : ℤ) :
    Except GeoError String × Cache :=
  match lruLookup c (lat, lon, precision) with
  | some v => (.ok v, lruTouch c (lat, lon, precision) v)
  | none =>
    match _calculate_single_geohash lat lon precision with
    | .error e => (.error e, c)
    | .ok v => (.ok v, lruInsert c (lat, lon, precision) v)

/-- The list comprehension of `calculate_geohashes`: encode the coordinate
pairs left to right, threading the cache; the first raised error aborts the
call, keeping the cache state reached so far. -/
def processPairs (c : Cache) (precision : ℤ) :
    List (ℚ × ℚ) → Except GeoError (List String) × Cache
  | [] => (.ok [], c)
  | (lat, lon) :: rest =>
    match _calculate_single_geohash_cached c lat lon precision with
    | (.error e, c') => (.error e, c')
    | (.ok v, c') =>
      match processPairs c' precision rest with
      | (.error e, c'') => (.error e, c'')
      | (.ok vs, c'') => (.ok (v :: vs), c'')

/-- `calculate_geohashes`, with the process-wide cache made an explicit
argument and result: check that the two lists have the same length, return
`[]` at once when the lists are empty, otherwise encode the zipped pairs in
order. -/
def calculate_geohashes (c : Cache) (lats lons : List ℚ) (precision : ℤ) :
    Except GeoError (List String) × Cache :=
  if lats.length ≠ lons.length then
    (.error (.lengthMismatch lats.length lons.length), c)
  else if lats.isEmpty then (.ok [], c)
  else processPairs c precision (lats.zip lons)

/-- Cache-free denotation of the pair loop: encode each pair with the
undecorated function body, aborting at the first error. -/
def processPairsPure (precision : ℤ) : List (ℚ × ℚ) → Except GeoError (List String)
  | [] => .ok []
  | (lat, lon) :: rest =>
    match _calculate_single_geohash lat lon precision with
    | .error e => .error e
    | .ok v =>
      match processPairsPure precision rest with
      | .error e => .error e
      | .ok vs => .ok (v :: vs)

/-- Cache-free denotation of `calculate_geohashes`: what the function
computes when every call reaches the undecorated body. -/
def calculate_geohashes_pure (lats lons : List ℚ) (precision : ℤ) :
    Except GeoError (List String) :=
  if lats.length ≠ lons.length then .error (.lengthMismatch lats.length lons.length)
  else if lats.isEmpty then .ok []
  else processPairsPure precision (lats.zip lons)

/-- A cache state is well formed when every stored entry was produced by a
successful run of the function body: its key passed validation and its
value is the encoder output for its key. Every cache reachable from the
empty initial cache is well formed. -/
def CacheWF (c : Cache) : Prop :=
  ∀ e ∈ c, validate e.1.1 e.1.2.1 e.1.2.2 = .ok () ∧
    e.2 = geohash_encode e.1.1 e.1.2.1 e.1.2.2.toNat

/-- Instrumented single-coordinate call: additionally counts the cache
probes (dictionary lookups) the `lru_cache` wrapper performs. The wrapper
always probes the cache with the argument triple before the wrapped
function body - and hence before validation - runs. -/
def _calculate_single_geohash_probed (c : Cache) (lat lon : ℚ) (precision : ℤ) :
    Except GeoError String × Cache × ℕ :=
  match _calculate_single_geohash_cached c lat lon precision with
  | (r, c') => (r, c', 1)

/-! ## Elementary facts about the encoder -/

theorem ghNextBit_fst_le (lat lon : ℚ) (st : GHState) : (ghNextBit lat lon st).1 ≤ 1 := by
  unfold ghNextBit
  split <;> split <;> simp

theorem ghDigit_fst_lt (lat lon : ℚ) :
    ∀ (k : ℕ) (st : GHState) (acc : ℕ), (ghDigit lat lon k st acc).1 < (acc + 1) * 2 ^ k := by
  intro k
  induction k with
  | zero => intro st acc; simp [ghDigit]
  | succ k ih =>
    intro st acc
    have hb : (ghNextBit lat lon st).1 ≤ 1 := ghNextBit_fst_le lat lon st
    have h1 : (ghDigit lat lon (k + 1) st acc).1
        = (ghDigit lat lon k (ghNextBit lat lon st).2 (2 * acc + (ghNextBit lat lon st).1)).1 := rfl
    rw [h1]
    calc (ghDigit lat lon k (ghNextBit lat lon st).2 (2 * acc + (ghNextBit lat lon st).1)).1
        < (2 * acc + (ghNextBit lat lon st).1 + 1) * 2 ^ k := ih _ _
      _ ≤ (2 * (acc + 1)) * 2 ^ k := mul_le_mul_right' (by omega) _
      _ = (acc + 1) * 2 ^ (k + 1) := by ring

theorem ghDigit_fst_lt_32 (lat lon : ℚ) (st : GHState) : (ghDigit lat lon 5 st 0).1 < 32 := by
  simpa using ghDigit_fst_lt lat lon 5 st 0

theorem BASE32_getD_mem : ∀ d, d < 32 → BASE32.getD d ' ' ∈ BASE32 := by decide

theorem ghChars_length (lat lon : ℚ) :
    ∀ (n : ℕ) (st : GHState), (ghChars lat lon n st).length = n := by
  intro n
  induction n with
  | zero => intro st; rfl
  | succ n ih => intro st; simp [ghChars, ih]

theorem ghChars_subset (lat lon : ℚ) :
    ∀ (n : ℕ) (st : GHState), ∀ ch ∈ ghChars lat lon n st, ch ∈ BASE32 := by
  intro n
  induction n with
  | zero => intro st ch h; simp [ghChars] at h
  | succ n ih =>
    intro st ch h
    simp only [ghChars, List.mem_cons] at h
    cases h with
    | inl h => subst h; exact BASE32_getD_mem _ (ghDigit_fst_lt_32 lat lon st)
    | inr h => exact ih _ ch h

theorem ghChars_take (lat lon : ℚ) :
    ∀ (m n : ℕ) (st : GHState), m ≤ n →
      (ghChars lat lon n st).take m = ghChars lat lon m st := by
  intro m
  induction m with
  | zero => intro n st h; simp [ghChars]
  | succ m ih =>
    intro n st h
    cases n with
    | zero => omega
    | succ n =>
      simp only [ghChars, List.take_succ_cons]
      rw [ih n _ (by omega)]

theorem geohash_encode_length (lat lon : ℚ) (n : ℕ) :
    (geohash_encode lat lon n).length = n := by
  simpa [geohash_encode, String.length] using ghChars_length lat lon n GHState.init

/-! ## Facts about validation and the single-coordinate function -/

theorem validate_ok (lat lon : ℚ) (p : ℤ) (h1 : -90 ≤ lat) (h2 : lat ≤ 90)
    (h3 : -180 ≤ lon) (h4 : lon ≤ 180) (h5 : 1 ≤ p) (h6 : p ≤ 12) :
    validate lat lon p = .ok () := by
  simp [validate, h1, h2, h3, h4, h5, h6]

theorem validate_err_lat (lat lon : ℚ) (p : ℤ) (h : ¬(-90 ≤ lat ∧ lat ≤ 90)) :
    validate lat lon p = .error (.latOutOfRange lat) := by
  simp [validate, h]

theorem validate_err_lon (lat lon : ℚ) (p : ℤ) (h1 : -90 ≤ lat) (h2 : lat ≤ 90)
    (h : ¬(-180 ≤ lon ∧ lon ≤ 180)) :
    validate lat lon p = .error (.lonOutOfRange lon) := by
  simp [validate, h1, h2, h]

theorem validate_err_prec (lat lon : ℚ) (p : ℤ) (h1 : -90 ≤ lat) (h2 : lat ≤ 90)
    (h3 : -180 ≤ lon) (h4 : lon ≤ 180) (h : ¬(1 ≤ p ∧ p ≤ 12)) :
    validate lat lon p = .error (.precisionOutOfRange p) := by
  simp [validate, h1, h2, h3, h4, h]

theorem validate_ok_iff (lat lon : ℚ) (p : ℤ) :
    validate lat lon p = .ok () ↔
      (-90 ≤ lat ∧ lat ≤ 90) ∧ (-180 ≤ lon ∧ lon ≤ 180) ∧ (1 ≤ p ∧ p ≤ 12) := by
  constructor
  · intro h
    by_cases h1 : -90 ≤ lat ∧ lat ≤ 90
    · by_cases h2 : -180 ≤ lon ∧ lon ≤ 180
      · by_cases h3 : 1 ≤ p ∧ p ≤ 12
        · exact ⟨h1, h2, h3⟩
        · rw [validate_err_prec lat lon p h1.1 h1.2 h2.1 h2.2 h3] at h
          exact Except.noConfusion h
      · rw [validate_err_lon lat lon p h1.1 h1.2 h2] at h
        exact Except.noConfusion h
    · rw [validate_err_lat lat lon p h1] at h
      exact Except.noConfusion h
  · rintro ⟨⟨h1, h2⟩, ⟨h3, h4⟩, h5, h6⟩
    exact validate_ok lat lon p h1 h2 h3 h4 h5 h6

theorem single_of_validate_ok (lat lon : ℚ) (p : ℤ) (h : validate lat lon p = .ok ()) :
    _calculate_single_geohash lat lon p = .ok (geohash_encode lat lon p.toNat) := by
  unfold _calculate_single_geohash
  rw [h]

theorem single_of_validate_err (lat lon : ℚ) (p : ℤ) (e : GeoError)
    (h : validate lat lon p = .error e) :
    _calculate_single_geohash lat lon p = .error e := by
  unfold _calculate_single_geohash
  rw [h]

theorem single_ok_iff (lat lon : ℚ) (p : ℤ) (v : String) :
    _calculate_single_geohash lat lon p = .ok v ↔
      validate lat lon p = .ok () ∧ v = geohash_encode lat lon p.toNat := by
  cases h : validate lat lon p with
  | error e => rw [single_of_validate_err lat lon p e h]; simp [h]
  | ok u =>
    cases u
    rw [single_of_validate_ok lat lon p h]
    simp [h, eq_comm]

/-! ## Facts about the cache -/

theorem CacheWF_nil : CacheWF [] := by
  intro e he
  exact absurd he (List.not_mem_nil e)

theorem lruLookup_mem (c : Cache) (k : Triple) (v : String)
    (h : lruLookup c k = some v) : (k, v) ∈ c := by
  unfold lruLookup at h
  cases hf : c.find? fun e => decide (e.1 = k) with
  | none => rw [hf] at h; exact Option.noConfusion h
  | some a =>
    rw [hf] at h
    obtain ⟨a1, a2⟩ := a
    have ha : (a1, a2) ∈ c := List.mem_of_find?_eq_some hf
    have hk : a1 = k := by
      have h' := List.find?_some hf
      simpa using h'
    have hv : a2 = v := Option.some.inj h
    rw [← hk, ← hv]
    exact ha

theorem lruLookup_eq_none (c : Cache) (k : Triple)
    (h : ∀ e ∈ c, e.1 ≠ k) : lruLookup c k = none := by
  unfold lruLookup
  rw [List.find?_eq_none.mpr]
  · rfl
  · intro x hx
    simp [h x hx]

theorem CacheWF_lruTouch (c : Cache) (hc : CacheWF c) (k : Triple) (v : String)
    (hk : validate k.1 k.2.1 k.2.2 = .ok ())
    (hv : v = geohash_encode k.1 k.2.1 k.2.2.toNat) :
    CacheWF (lruTouch c k v) := by
  intro e he
  unfold lruTouch at he
  rcases List.mem_cons.mp he with h | h
  · subst h; exact ⟨hk, hv⟩
  · exact hc e (List.mem_of_mem_filter h)

theorem CacheWF_lruInsert (c : Cache) (hc : CacheWF c) (k : Triple) (v : String)
    (hk : validate k.1 k.2.1 k.2.2 = .ok ())
    (hv : v = geohash_encode k.1 k.2.1 k.2.2.toNat) :
    CacheWF (lruInsert c k v) := by
  have hcons : CacheWF ((k, v) :: c) := by
    intro e he
    rcases List.mem_cons.mp he with h | h
    · subst h; exact ⟨hk, hv⟩
    · exact hc e h
  intro e he
  unfold lruInsert at he
  split at he
  · exact hcons e ((List.dropLast_sublist _).subset he)
  · exact hcons e he

theorem cached_spec (c : Cache) (hc : CacheWF c) (lat lon : ℚ) (p : ℤ) :
    (_calculate_single_geohash_cached c lat lon p).1 = _calculate_single_geohash lat lon p ∧
    CacheWF (_calculate_single_geohash_cached c lat lon p).2 := by
  unfold _calculate_single_geohash_cached
  cases hl : lruLookup c (lat, lon, p) with
  | some v =>
    have hm : ((lat, lon, p), v) ∈ c := lruLookup_mem c _ v hl
    obtain ⟨hvk, hvv⟩ := hc _ hm
    simp only at hvk hvv
    constructor
    · show Except.ok v = _
      rw [single_of_validate_ok lat lon p hvk, hvv]
    · exact CacheWF_lruTouch c hc _ v hvk hvv
  | none =>
    cases hs : _calculate_single_geohash lat lon p with
    | error e => exact ⟨rfl, hc⟩
    | ok v =>
      obtain ⟨hvk, hvv⟩ := (single_ok_iff lat lon p v).mp hs
      exact ⟨rfl, CacheWF_lruInsert c hc _ v hvk hvv⟩

/-- On a validation failure, the probe of a well-formed cache necessarily
misses, and the cached call returns exactly the raised error with the cache
unchanged. -/
theorem cached_invalid (c : Cache) (hc : CacheWF c) (lat lon : ℚ) (p : ℤ) (e : GeoError)
    (hfail : validate lat lon p = .error e) :
    lruLookup c (lat, lon, p) = none ∧
    _calculate_single_geohash_cached c lat lon p = (.error e, c) := by
  have hmiss : lruLookup c (lat, lon, p) = none := by
    apply lruLookup_eq_none
    intro x hx hxk
    obtain ⟨hv, _⟩ := hc x hx
    simp only [hxk] at hv
    rw [hfail] at hv
    exact Except.noConfusion hv
  refine ⟨hmiss, ?_⟩
  unfold _calculate_single_geohash_cached
  rw [hmiss, single_of_validate_err lat lon p e hfail]

/-! ## Facts about the batch loop -/

theorem processPairs_cons_err (c : Cache) (p : ℤ) (lat lon : ℚ) (rest : List (ℚ × ℚ))
    (e : GeoError) (c' : Cache)
    (h : _calculate_single_geohash_cached c lat lon p = (.error e, c')) :
    processPairs c p ((lat, lon) :: rest) = (.error e, c') := by
  simp [processPairs, h]

theorem processPairs_cons_ok (c : Cache) (p : ℤ) (lat lon : ℚ) (rest : List (ℚ × ℚ))
    (v : String) (c' : Cache)
    (h : _calculate_single_geohash_cached c lat lon p = (.ok v, c')) :
    processPairs c p ((lat, lon) :: rest) =
      match processPairs c' p rest with
      | (.error e, c'') => (.error e, c'')
      | (.ok vs, c'') => (.ok (v :: vs), c'') := by
  simp [processPairs, h]

theorem processPairsPure_cons_err (p : ℤ) (lat lon : ℚ) (rest : List (ℚ × ℚ))
    (e : GeoError) (h : _calculate_single_geohash lat lon p = .error e) :
    processPairsPure p ((lat, lon) :: rest) = .error e := by
  simp [processPairsPure, h]

theorem processPairsPure_cons_ok (p : ℤ) (lat lon : ℚ) (rest : List (ℚ × ℚ))
    (v : String) (h : _calculate_single_geohash lat lon p = .ok v) :
    processPairsPure p ((lat, lon) :: rest) =
      match processPairsPure p rest with
      | .error e => .error e
      | .ok vs => .ok (v :: vs) := by
  simp [processPairsPure, h]

/-- The cached batch loop computes, on any well-formed cache, exactly the
cache-free denotation, and keeps the cache well formed. -/
theorem processPairs_spec (p : ℤ) :
    ∀ (pairs : List (ℚ × ℚ)) (c : Cache), CacheWF c →
      (processPairs c p pairs).1 = processPairsPure p pairs ∧
      CacheWF (processPairs c p pairs).2 := by
  intro pairs
  induction pairs with
  | nil => intro c hc; exact ⟨rfl, hc⟩
  | cons q rest ih =>
    intro c hc
    obtain ⟨lat, lon⟩ := q
    obtain ⟨h1, h2⟩ := cached_spec c hc lat lon p
    cases hcc : _calculate_single_geohash_cached c lat lon p with
    | mk r c2 =>
      rw [hcc] at h1 h2
      simp only at h1 h2
      cases r with
      | error e =>
        rw [processPairs_cons_err c p lat lon rest e c2 hcc,
            processPairsPure_cons_err p lat lon rest e h1.symm]
        exact ⟨rfl, h2⟩
      | ok v =>
        rw [processPairs_cons_ok c p lat lon rest v c2 hcc,
            processPairsPure_cons_ok p lat lon rest v h1.symm]
        obtain ⟨ih1, ih2⟩ := ih c2 h2
        cases hrest : processPairs c2 p rest with
        | mk rr cc =>
          rw [hrest] at ih1 ih2
          simp only at ih1 ih2
          rw [← ih1]
          cases rr with
          | error e2 => exact ⟨rfl, ih2⟩
          | ok vs => exact ⟨rfl, ih2⟩

/-- `calculate_geohashes` computes, on any well-formed cache, exactly its
cache-free denotation, and keeps the cache well formed. -/
theorem calculate_geohashes_spec (c : Cache) (hc : CacheWF c)
    (lats lons : List ℚ) (p : ℤ) :
    (calculate_geohashes c lats lons p).1 = calculate_geohashes_pure lats lons p ∧
    CacheWF (calculate_geohashes c lats lons p).2 := by
  by_cases hlen : lats.length ≠ lons.length
  · refine ⟨?_, ?_⟩ <;> simp [calculate_geohashes, calculate_geohashes_pure, hlen, hc]
  · by_cases hemp : lats.isEmpty
    · refine ⟨?_, ?_⟩ <;>
        simp [calculate_geohashes, calculate_geohashes_pure, hlen, hemp, hc]
    · obtain ⟨ha, hb⟩ := processPairs_spec p (lats.zip lons) c hc
      constructor
      · simpa [calculate_geohashes, calculate_geohashes_pure, hlen, hemp] using ha
      · simpa [calculate_geohashes, calculate_geohashes_pure, hlen, hemp] using hb

/-- When every pair of `pre` validates and `(lat, lon)` fails to validate
with error `e`, the batch loop on `pre ++ (lat, lon) :: post` raises `e`
and leaves the cache exactly as the loop on `pre` alone leaves it. -/
theorem processPairs_append_fail (p : ℤ) (lat lon : ℚ) (e : GeoError)
    (post : List (ℚ × ℚ)) (hfail : validate lat lon p = .error e) :
    ∀ (pre : List (ℚ × ℚ)) (c : Cache), CacheWF c →
      (∀ q ∈ pre, validate q.1 q.2 p = .ok ()) →
      processPairs c p (pre ++ (lat, lon) :: post)
        = (.error e, (processPairs c p pre).2) := by
  intro pre
  induction pre with
  | nil =>
    intro c hc _
    obtain ⟨_, hcc⟩ := cached_invalid c hc lat lon p e hfail
    rw [List.nil_append, processPairs_cons_err c p lat lon post e c hcc]
    rfl
  | cons q pre ih =>
    intro c hc hok
    obtain ⟨qlat, qlon⟩ := q
    have hq : validate qlat qlon p = .ok () := hok (qlat, qlon) (List.mem_cons_self _ _)
    obtain ⟨h1, h2⟩ := cached_spec c hc qlat qlon p
    cases hcc : _calculate_single_geohash_cached c qlat qlon p with
    | mk r c2 =>
      rw [hcc] at h1 h2
      simp only at h1 h2
      rw [single_of_validate_ok qlat qlon p hq] at h1
      subst h1
      rw [List.cons_append,
          processPairs_cons_ok c p qlat qlon (pre ++ (lat, lon) :: post) _ c2 hcc,
          processPairs_cons_ok c p qlat qlon pre _ c2 hcc,
          ih c2 h2 (fun x hx => hok x (List.mem_cons_of_mem _ hx))]
      cases processPairs c2 p pre with
      | mk rr cc => cases rr <;> rfl

/-! ## Claims -/

/-- C1: for every latitude in `[-90, 90]`, longitude in `[-180, 180]` and
precision in `[1, 12]`, `calculate_geohashes` on the one-element lists
succeeds from any well-formed cache state and returns a one-element list
whose element is a string of length exactly `precision` all of whose
characters come from the 32-symbol alphabet `BASE32`. -/
theorem C1_encode_many_singleton (c : Cache) (hc : CacheWF c) (lat lon : ℚ) (p : ℤ)
    (h1 : -90 ≤ lat) (h2 : lat ≤ 90) (h3 : -180 ≤ lon) (h4 : lon ≤ 180)
    (h5 : 1 ≤ p) (h6 : p ≤ 12) :
    ∃ s : String, (calculate_geohashes c [lat] [lon] p).1 = .ok [s] ∧
      (s.length : ℤ) = p ∧ ∀ ch ∈ s.data, ch ∈ BASE32 := by
  have hv : validate lat lon p = .ok () := validate_ok lat lon p h1 h2 h3 h4 h5 h6
  refine ⟨geohash_encode lat lon p.toNat, ?_, ?_, ?_⟩
  · rw [(calculate_geohashes_spec c hc [lat] [lon] p).1]
    simp [calculate_geohashes_pure, processPairsPure, single_of_validate_ok lat lon p hv]
  · rw [geohash_encode_length]
    exact Int.toNat_of_nonneg (by omega)
  · intro ch hch
    exact ghChars_subset lat lon _ _ ch hch

/-- Witness for C1 at latitude 0, longitude 0, precision 1 on the empty
cache. -/
theorem C1_witness :
    ∃ s : String, (calculate_geohashes [] [(0 : ℚ)] [(0 : ℚ)] 1).1 = .ok [s] ∧
      (s.length : ℤ) = 1 ∧ ∀ ch ∈ s.data, ch ∈ BASE32 :=
  C1_encode_many_singleton [] CacheWF_nil 0 0 1 (by decide) (by decide) (by decide)
    (by decide) (by decide) (by decide)

/-- C2, counterexample: with the encoder the spec itself prescribes (the
standard geohash bisection, checked below against the reference coordinate
pair), `encode_many([40.7128], [-74.0060], 5)` does not return
`["dr5rs"]`. -/
theorem C2_counterexample :
    (calculate_geohashes [] [(40.7128 : ℚ)] [(-74.0060 : ℚ)] 5).1 ≠ .ok ["dr5rs"] := by
  have ha : (40.7128 : ℚ) = mkRat 407128 10000 := by norm_num [Rat.mkRat_eq_div]
  have hb : ((-74.0060 : ℚ)) = mkRat (-740060) 10000 := by norm_num [Rat.mkRat_eq_div]
  rw [ha, hb]
  decide

/-- C2, amended: `encode_many([37.7749], [-122.4194], 5)` returns exactly
`["9q8yy"]`, and `encode_many([40.7128], [-74.0060], 5)` returns exactly
`["dr5re"]` (the value the standard geohash algorithm of the spec
produces; the reference table's `"dr5rs"` is inconsistent with that
algorithm). -/
theorem C2_amended :
    (calculate_geohashes [] [(37.7749 : ℚ)] [(-122.4194 : ℚ)] 5).1 = .ok ["9q8yy"] ∧
    (calculate_geohashes [] [(40.7128 : ℚ)] [(-74.0060 : ℚ)] 5).1 = .ok ["dr5re"] := by
  constructor
  · have ha : (37.7749 : ℚ) = mkRat 377749 10000 := by norm_num [Rat.mkRat_eq_div]
    have hb : ((-122.4194 : ℚ)) = mkRat (-1224194) 10000 := by norm_num [Rat.mkRat_eq_div]
    rw [ha, hb]
    decide
  · have ha : (40.7128 : ℚ) = mkRat 407128 10000 := by norm_num [Rat.mkRat_eq_div]
    have hb : ((-74.0060 : ℚ)) = mkRat (-740060) 10000 := by norm_num [Rat.mkRat_eq_div]
    rw [ha, hb]
    decide

/-- C3: validation succeeds exactly when all three values are within their
inclusive bounds (so the boundary values -90, 90, -180, 180, 1, 12 all
validate), an out-of-range latitude fails with the latitude message, an
out-of-range longitude (with latitude in range) fails with the longitude
message, and an out-of-range precision (with both coordinates in range)
fails with the precision message, each message carrying the offending
value. -/
theorem C3_validate_iff (lat lon : ℚ) (p : ℤ) :
    (validate lat lon p = .ok () ↔
      (-90 ≤ lat ∧ lat ≤ 90) ∧ (-180 ≤ lon ∧ lon ≤ 180) ∧ (1 ≤ p ∧ p ≤ 12)) ∧
    (¬(-90 ≤ lat ∧ lat ≤ 90) →
      validate lat lon p = .error (.latOutOfRange lat) ∧
      (GeoError.latOutOfRange lat).message
        = "Latitude must be between -90 and 90, got " ++ toString lat) ∧
    ((-90 ≤ lat ∧ lat ≤ 90) → ¬(-180 ≤ lon ∧ lon ≤ 180) →
      validate lat lon p = .error (.lonOutOfRange lon) ∧
      (GeoError.lonOutOfRange lon).message
        = "Longitude must be between -180 and 180, got " ++ toString lon) ∧
    ((-90 ≤ lat ∧ lat ≤ 90) → (-180 ≤ lon ∧ lon ≤ 180) → ¬(1 ≤ p ∧ p ≤ 12) →
      validate lat lon p = .error (.precisionOutOfRange p) ∧
      (GeoError.precisionOutOfRange p).message
        = "Precision must be between 1 and 12, got " ++ toString p) :=
  ⟨validate_ok_iff lat lon p,
   fun h => ⟨validate_err_lat lat lon p h, rfl⟩,
   fun h1 h2 => ⟨validate_err_lon lat lon p h1.1 h1.2 h2, rfl⟩,
   fun h1 h2 h3 => ⟨validate_err_prec lat lon p h1.1 h1.2 h2.1 h2.2 h3, rfl⟩⟩

/-- Witness for C3 at the out-of-range latitude 91. -/
theorem C3_witness :
    ¬((-90 : ℚ) ≤ 91 ∧ (91 : ℚ) ≤ 90) ∧
    validate 91 0 5 = .error (.latOutOfRange 91) := by
  have h : ¬((-90 : ℚ) ≤ 91 ∧ (91 : ℚ) ≤ 90) := by decide
  exact ⟨h, ((C3_validate_iff 91 0 5).2.1 h).1⟩

/-- C4: on lists of unequal lengths, `calculate_geohashes` fails with the
length-mismatch error carrying both lengths, returns no partial result,
and returns the cache completely unchanged; the error message is the
mismatch template with both lengths interpolated. -/
theorem C4_length_mismatch (c : Cache) (lats lons : List ℚ) (p : ℤ)
    (h : lats.length ≠ lons.length) :
    calculate_geohashes c lats lons p
      = (.error (.lengthMismatch lats.length lons.length), c) ∧
    (GeoError.lengthMismatch lats.length lons.length).message
      = "Latitude and longitude lists must have same length, got "
        ++ toString lats.length ++ " and " ++ toString lons.length :=
  ⟨by simp [calculate_geohashes, h], rfl⟩

/-- Witness for C4 at a one-element latitude list and empty longitude
list. -/
theorem C4_witness :
    calculate_geohashes [] [(0 : ℚ)] [] 5 = (.error (.lengthMismatch 1 0), []) :=
  (C4_length_mismatch [] [(0 : ℚ)] [] 5 (by decide)).1

/-- C5: when every coordinate before position `i` validates and the
coordinate at position `i` fails to validate with error `e` (the lists are
written as `pre ++ failing :: post`), the batch call raises exactly `e`,
returns no partial result, and leaves the cache in precisely the state an
independent call on the prefix alone would leave it in. -/
theorem C5_first_failure (c : Cache) (hc : CacheWF c) (p : ℤ)
    (preLat postLat preLon postLon : List ℚ) (lat lon : ℚ) (e : GeoError)
    (hlen1 : preLat.length = preLon.length) (hlen2 : postLat.length = postLon.length)
    (hok : ∀ q ∈ preLat.zip preLon, validate q.1 q.2 p = .ok ())
    (hfail : validate lat lon p = .error e) :
    calculate_geohashes c (preLat ++ lat :: postLat) (preLon ++ lon :: postLon) p
      = (.error e, (calculate_geohashes c preLat preLon p).2) := by
  have hzip : (preLat ++ lat :: postLat).zip (preLon ++ lon :: postLon)
      = preLat.zip preLon ++ (lat, lon) :: postLat.zip postLon := by
    rw [List.zip_append hlen1]
    rfl
  have hlhs : calculate_geohashes c (preLat ++ lat :: postLat) (preLon ++ lon :: postLon) p
      = processPairs c p ((preLat ++ lat :: postLat).zip (preLon ++ lon :: postLon)) := by
    have hlen : (preLat ++ lat :: postLat).length = (preLon ++ lon :: postLon).length := by
      simp [hlen1, hlen2]
    simp [calculate_geohashes, hlen]
  have hrhs : (calculate_geohashes c preLat preLon p).2
      = (processPairs c p (preLat.zip preLon)).2 := by
    by_cases hpe : preLat = []
    · subst hpe
      have hpl : preLon = [] := by
        cases preLon with
        | nil => rfl
        | cons a l => simp at hlen1
      subst hpl
      rfl
    · simp [calculate_geohashes, hlen1, hpe]
  rw [hlhs, hzip, processPairs_append_fail p lat lon e (postLat.zip postLon) hfail
        (preLat.zip preLon) c hc hok, hrhs]

/-- Witness for C5: the second coordinate of a two-element batch has an
invalid latitude; the call raises the latitude error and the cache equals
that of the independent one-element prefix call. -/
theorem C5_witness :
    calculate_geohashes [] [(0 : ℚ), 91] [(0 : ℚ), 0] 5
      = (.error (.latOutOfRange 91), (calculate_geohashes [] [(0 : ℚ)] [(0 : ℚ)] 5).2) :=
  C5_first_failure [] CacheWF_nil 5 [0] [] [0] [] 91 0 (.latOutOfRange 91)
    (by decide) (by decide) (by decide) (by decide)

/-- C6: from any two well-formed cache states - in particular any two
states reachable from the empty initial cache - identical argument lists
yield identical results, and both equal the cache-free denotation: the
memoization layer never changes the returned value, which is a pure
function of the three inputs. -/
theorem C6_determinism (c1 c2 : Cache) (h1 : CacheWF c1) (h2 : CacheWF c2)
    (lats lons : List ℚ) (p : ℤ) :
    (calculate_geohashes c1 lats lons p).1 = (calculate_geohashes c2 lats lons p).1 ∧
    (calculate_geohashes c1 lats lons p).1 = calculate_geohashes_pure lats lons p := by
  have e1 := (calculate_geohashes_spec c1 h1 lats lons p).1
  have e2 := (calculate_geohashes_spec c2 h2 lats lons p).1
  exact ⟨e1.trans e2.symm, e1⟩

/-- Witness for C6: a call on a cache already holding the requested triple
returns the same result as the call on the empty cache, and both equal the
cache-free denotation. -/
theorem C6_witness :
    (calculate_geohashes [(((0 : ℚ), (0 : ℚ), (5 : ℤ)), geohash_encode 0 0 5)]
        [(0 : ℚ)] [(0 : ℚ)] 5).1
      = (calculate_geohashes [] [(0 : ℚ)] [(0 : ℚ)] 5).1 ∧
    (calculate_geohashes [(((0 : ℚ), (0 : ℚ), (5 : ℤ)), geohash_encode 0 0 5)]
        [(0 : ℚ)] [(0 : ℚ)] 5).1
      = calculate_geohashes_pure [(0 : ℚ)] [(0 : ℚ)] 5 := by
  have hwf : CacheWF [(((0 : ℚ), (0 : ℚ), (5 : ℤ)), geohash_encode 0 0 5)] := by
    intro e he
    have h := List.mem_singleton.mp he
    subst h
    exact ⟨by decide, rfl⟩
  exact C6_determinism _ [] hwf CacheWF_nil [0] [0] 5

/-- C7: with both input lists empty, `calculate_geohashes` returns the
empty list and the completely unchanged cache for every integer precision,
in range or not: precision is never validated, and no cache lookup,
insertion or recency update takes place. -/
theorem C7_empty (c : Cache) (p : ℤ) :
    calculate_geohashes c [] [] p = (.ok [], c) := rfl

/-- C8, counterexample: the claim says the validator runs before any cache
access, so that a failing triple causes no cache lookup; but the
`lru_cache` wrapper probes the cache before the wrapped function body -
and hence before validation - runs: on the invalid triple `(91, 0, 5)` the
instrumented call performs one cache probe, not zero, even though
validation fails. -/
theorem C8_counterexample :
    validate 91 0 5 = .error (.latOutOfRange 91) ∧
    (_calculate_single_geohash_probed [] 91 0 5).2.2 = 1 :=
  ⟨by decide, rfl⟩

/-- C8, amended: the cache probe happens before validation, but for every
triple that fails validation the probe of a well-formed cache necessarily
misses (invalid triples are never stored), the validation error propagates
unchanged to the caller, and the cache - contents and recency order - is
returned completely unmutated. -/
theorem C8_amended (c : Cache) (hc : CacheWF c) (lat lon : ℚ) (p : ℤ) (e : GeoError)
    (hfail : validate lat lon p = .error e) :
    lruLookup c (lat, lon, p) = none ∧
    _calculate_single_geohash_cached c lat lon p = (.error e, c) :=
  cached_invalid c hc lat lon p e hfail

/-- Witness for C8 at the invalid triple `(91, 0, 5)` on the empty
cache. -/
theorem C8_witness :
    lruLookup [] ((91 : ℚ), (0 : ℚ), (5 : ℤ)) = none ∧
    _calculate_single_geohash_cached [] 91 0 5 = (.error (.latOutOfRange 91), []) :=
  C8_amended [] CacheWF_nil 91 0 5 (.latOutOfRange 91) (by decide)

/-- C9: for a fixed in-range coordinate pair and valid precisions
`p < q`, the geohash at precision `p` is a strict prefix of the geohash at
precision `q`: the longer string starts with the shorter one, is strictly
longer, and the two are never equal. -/
theorem C9_monotone (lat lon : ℚ) (p q : ℤ)
    (h1 : -90 ≤ lat) (h2 : lat ≤ 90) (h3 : -180 ≤ lon) (h4 : lon ≤ 180)
    (h5 : 1 ≤ p) (h6 : q ≤ 12) (hpq : p < q) :
    ∃ s t : String, _calculate_single_geohash lat lon p = .ok s ∧
      _calculate_single_geohash lat lon q = .ok t ∧
      t.data.take s.data.length = s.data ∧ s.length < t.length ∧ s ≠ t := by
  have hvp : validate lat lon p = .ok () := validate_ok lat lon p h1 h2 h3 h4 h5 (by omega)
  have hvq : validate lat lon q = .ok () := validate_ok lat lon q h1 h2 h3 h4 (by omega) h6
  refine ⟨geohash_encode lat lon p.toNat, geohash_encode lat lon q.toNat,
    single_of_validate_ok lat lon p hvp, single_of_validate_ok lat lon q hvq, ?_, ?_, ?_⟩
  · show (ghChars lat lon q.toNat GHState.init).take
        (ghChars lat lon p.toNat GHState.init).length = ghChars lat lon p.toNat GHState.init
    rw [ghChars_length]
    exact ghChars_take lat lon p.toNat q.toNat GHState.init (by omega)
  · rw [geohash_encode_length, geohash_encode_length]
    omega
  · intro hst
    have hh := congrArg String.length hst
    rw [geohash_encode_length, geohash_encode_length] at hh
    omega

/-- Witness for C9 at the coordinate `(0, 0)` and precisions 1 and 5. -/
theorem C9_witness :
    ∃ s t : String, _calculate_single_geohash 0 0 1 = .ok s ∧
      _calculate_single_geohash 0 0 5 = .ok t ∧
      t.data.take s.data.length = s.data ∧ s.length < t.length ∧ s ≠ t :=
  C9_monotone 0 0 1 5 (by decide) (by decide) (by decide) (by decide)
    (by decide) (by decide) (by decide)

/-- C10: the range checks run in source order latitude, longitude,
precision: an out-of-range latitude always raises the latitude error,
whatever longitude and precision are; with latitude in range, an
out-of-range longitude always raises the longitude error, whatever
precision is. -/
theorem C10_check_order (lat lon : ℚ) (p : ℤ) :
    (¬(-90 ≤ lat ∧ lat ≤ 90) → validate lat lon p = .error (.latOutOfRange lat)) ∧
    ((-90 ≤ lat ∧ lat ≤ 90) → ¬(-180 ≤ lon ∧ lon ≤ 180) →
      validate lat lon p = .error (.lonOutOfRange lon)) :=
  ⟨fun h => validate_err_lat lat lon p h,
   fun h1 h2 => validate_err_lon lat lon p h1.1 h1.2 h2⟩

/-- Witness for C10: with every value out of range the latitude error
wins; with only longitude and precision out of range the longitude error
wins. -/
theorem C10_witness :
    validate 91 200 0 = .error (.latOutOfRange 91) ∧
    validate 0 200 0 = .error (.lonOutOfRange 200) :=
  ⟨(C10_check_order 91 200 0).1 (by decide),
   (C10_check_order 0 200 0).2 (by decide) (by decide)⟩

end Geodude
